import Mathlib

/-!
Verification of the K-prediction Telegram bot (`card_predictor.py`, `handlers.py`)
against its natural-language specification.

The Python source is shallowly embedded: pure parsing helpers become Lean
functions over `List Char` / `String`, the mutable `CardPredictor` object
becomes an explicit `PState` record threaded through step functions, Python
`dict`s become insertion-ordered association lists with Python assignment /
lookup semantics, and `datetime.now()` becomes an explicit `now : Nat`
parameter.  The source file `card_predictor.py` is truncated inside
`should_predict` (mid gap-rule); everything below is translated from the
surviving source except where a doc comment says `Modelled from the spec:`.
-/

/-- U+FE0F, the emoji variation selector that terminates each suit glyph
(`♠️` is the two code points `♠` + U+FE0F, exactly as Python sees it). -/
def vs16 : Char := Char.ofNat 0xFE0F

/-- Embeds `content.replace("❤️", "♥️")` from `extract_card_details`
(line 168): the two-code-point sequence `❤`+VS16 is rewritten to `♥`+VS16,
scanning left to right without overlap, other characters untouched. -/
def normalizeHearts : List Char → List Char
  | [] => []
  | [c] => [c]
  | c1 :: c2 :: rest =>
    if c1 = '❤' ∧ c2 = vs16 then '♥' :: vs16 :: normalizeHearts rest
    else c1 :: normalizeHearts (c2 :: rest)

/-- Numeric value of a digit string, as Python's `int` computes it on the
digit groups captured by the regexes (`int(match.group(1))`). -/
def digitsVal (ds : List Char) : Nat :=
  ds.foldl (fun a c => 10 * a + (c.toNat - 48)) 0

/-- One suit token of the regex alternative `(♠️|♥️|♦️|♣️)` (line 170):
a suit character followed by U+FE0F.  Returns the matched two-character
suit string and the remaining input. -/
def matchSuit : List Char → Option (String × List Char)
  | c1 :: c2 :: rest =>
    if (c1 = '♠' ∨ c1 = '♥' ∨ c1 = '♦' ∨ c1 = '♣') ∧ c2 = vs16 then
      some (⟨[c1, c2]⟩, rest)
    else none
  | _ => none

/-- The rank letters admitted by `[AKQJ]` under `re.IGNORECASE`. -/
def isRankLetter (c : Char) : Bool :=
  c = 'A' ∨ c = 'K' ∨ c = 'Q' ∨ c = 'J' ∨ c = 'a' ∨ c = 'k' ∨ c = 'q' ∨ c = 'j'

/-- One attempted match of `(\d+|[AKQJ])(♠️|♥️|♦️|♣️)` at the current
position.  `\d+` is greedy; since a suit character is never a digit,
maximal munch is exactly the regex's backtracking behaviour.  The captured
value is uppercased as in `value.upper()` (line 173). -/
def tryCard (l : List Char) : Option (String × String × List Char) :=
  let ds := l.takeWhile Char.isDigit
  if ds ≠ [] then
    match matchSuit (l.dropWhile Char.isDigit) with
    | some (su, rest) => some (⟨ds⟩, su, rest)
    | none => none
  else
    match l with
    | c :: rest =>
      if isRankLetter c then
        match matchSuit rest with
        | some (su, rest2) => some (⟨[c.toUpper]⟩, su, rest2)
        | none => none
      else none
    | [] => none

/-- `re.findall` driver for the card pattern: try a match at each position,
resume after the match or advance one character.  Fuel equals the input
length, which each step strictly consumes, so the scan is never cut short. -/
def scanCardsAux : Nat → List Char → List (String × String)
  | 0, _ => []
  | _ + 1, [] => []
  | fuel + 1, c :: rest =>
    match tryCard (c :: rest) with
    | some (v, su, rest') => (v, su) :: scanCardsAux fuel rest'
    | none => scanCardsAux fuel rest

/-- `extract_card_details` (lines 165-174): normalize the heart variant,
then collect all `(rank, suit)` matches left to right. -/
def extract_card_details (content : String) : List (String × String) :=
  scanCardsAux (normalizeHearts content.data).length (normalizeHearts content.data)

/-- Content between the first `(` and the first following `)`, per the
regex `\(([^)]*)\)`: `none` when no such pair exists. -/
def firstParenAux : List Char → Option (List Char)
  | [] => none
  | ')' :: _ => some []
  | c :: rest => (firstParenAux rest).map (c :: ·)

/-- Leftmost search for the parenthesized group. -/
def firstParen : List Char → Option (List Char)
  | [] => none
  | '(' :: rest => firstParenAux rest
  | _ :: rest => firstParen rest

/-- Python's `str.strip()`: drop whitespace from both ends. -/
def pyStrip (l : List Char) : List Char :=
  (((l.dropWhile Char.isWhitespace).reverse).dropWhile Char.isWhitespace).reverse

/-- `extract_first_parentheses_content` (lines 157-163): first
parenthesized group, stripped of surrounding whitespace. -/
def extract_first_parentheses_content (message : String) : Option String :=
  (firstParen message.data).map (fun l => (⟨pyStrip l⟩ : String))

/-- `get_first_two_cards` (lines 176-180): the first two parsed cards of
the given content, formatted `value ++ suit`. -/
def get_first_two_cards (content : String) : List String :=
  ((extract_card_details content).take 2).map (fun p => p.1 ++ p.2)

/-- `check_value_K_in_first_parentheses` (lines 182-195): the first King
card of the first parenthesized group; `none` when the group is missing or
empty (Python's falsy test on the stripped content). -/
def check_value_K_in_first_parentheses (message : String) : Option (String × String) :=
  match extract_first_parentheses_content message with
  | none => none
  | some content =>
    if content = "" then none
    else (extract_card_details content).find? (fun p => p.1 == "K")

/-- Match of `N(\d+)\.` (case-insensitive `N`) directly after a `#`. -/
def matchNDigitsDot : List Char → Option Nat
  | c :: rest =>
    if c = 'N' ∨ c = 'n' then
      let ds := rest.takeWhile Char.isDigit
      if ds ≠ [] then
        match rest.dropWhile Char.isDigit with
        | '.' :: _ => some (digitsVal ds)
        | _ => none
      else none
    else none
  | [] => none

/-- Leftmost `re.search` of `#N(\d+)\.` (line 134). -/
def searchHashN : List Char → Option Nat
  | [] => none
  | '#' :: rest =>
    match matchNDigitsDot rest with
    | some n => some n
    | none => searchHashN rest
  | _ :: rest => searchHashN rest

/-- Leftmost `re.search` of `🔵(\d+)🔵` (line 138); on a failed attempt the
search resumes one character further, as a regex engine does. -/
def searchBlue : List Char → Option Nat
  | [] => none
  | '🔵' :: rest =>
    (if (rest.takeWhile Char.isDigit) ≠ [] then
      match rest.dropWhile Char.isDigit with
      | '🔵' :: _ => some (digitsVal (rest.takeWhile Char.isDigit))
      | _ => searchBlue rest
    else searchBlue rest)
  | _ :: rest => searchBlue rest

/-- `extract_game_number` (lines 130-145): `#N<digits>.` first, then the
`🔵<digits>🔵` prediction format. -/
def extract_game_number (message : String) : Option Nat :=
  match searchHashN message.data with
  | some n => some n
  | none => searchBlue message.data

/-- Match of `T(\d+)` (case-insensitive `T`) directly after a `#`. -/
def matchTDigits : List Char → Option Nat
  | c :: rest =>
    if c = 'T' ∨ c = 't' then
      let ds := rest.takeWhile Char.isDigit
      if ds ≠ [] then some (digitsVal ds) else none
    else none
  | [] => none

/-- `extract_total_score` (lines 147-155): leftmost `#T(\d+)`. -/
def searchHashT : List Char → Option Nat
  | [] => none
  | '#' :: rest =>
    match matchTDigits rest with
    | some n => some n
    | none => searchHashT rest
  | _ :: rest => searchHashT rest

/-- `extract_total_score` on a whole message. -/
def extract_total_score (message : String) : Option Nat :=
  searchHashT message.data

/-- `has_pending_indicators` (lines 342-347): `🕐` or `⏰` present. -/
def has_pending_indicators (message : String) : Bool :=
  message.data.contains '🕐' || message.data.contains '⏰'

/-- `has_completion_indicators` (lines 349-353): `✅` or `🔰` present. -/
def has_completion_indicators (message : String) : Bool :=
  message.data.contains '✅' || message.data.contains '🔰'

/-- One value of `sequential_history`: the dict
`{'cartes': first_two_cards, 'date': datetime.now().isoformat()}`
written at line 207, with the timestamp abstracted to a `Nat`. -/
structure GameRec where
  cartes : List String
  date : Nat
deriving DecidableEq

/-- One entry of `inter_data`: the dict built at lines 235-241. -/
structure InterEntry where
  numero_resultat : Int
  declencheur : List String
  numero_declencheur : Int
  carte_k : String
  date_resultat : Nat
deriving DecidableEq

/-- One learned rule: the dict `{'cards': ..., 'count': ...}` of line 267. -/
structure SmartRule where
  cards : List String
  count : Nat
deriving DecidableEq

/-- The mutable fields of `CardPredictor` touched by the operations under
study.  (`predictions`, `processed_messages` and `last_prediction_time`
are carried by the object but never read or written by
`collect_inter_data`, `analyze_and_set_smart_rules` or the surviving body
of `should_predict`; their persistence is modelled separately below.)
Python dicts become insertion-ordered association lists. -/
structure PState where
  target_channel_id : Option Int
  prediction_channel_id : Option Int
  sequential_history : List (Int × GameRec)
  inter_data : List InterEntry
  is_inter_mode_active : Bool
  smart_rules : List SmartRule
deriving DecidableEq

/-- Python `dict.get`: value at the key, `none` when absent. -/
def alGet {κ α : Type} [DecidableEq κ] : List (κ × α) → κ → Option α
  | [], _ => none
  | (k', v) :: rest, k => if k' = k then some v else alGet rest k

/-- Python `d[k] = v`: replace the value at an existing key in place,
otherwise append the new binding (insertion order preserved). -/
def alSet {κ α : Type} [DecidableEq κ] : List (κ × α) → κ → α → List (κ × α)
  | [], k, v => [(k, v)]
  | (k', v') :: rest, k, v =>
    if k' = k then (k, v) :: rest else (k', v') :: alSet rest k v

/-- Step 4 of `collect_inter_data` (lines 246-250): keep only history
entries with `num >= game_number - 50` (a dict comprehension, so order is
preserved). -/
def cleanupHistory (s : PState) (game_number : Int) : PState :=
  { s with sequential_history :=
      s.sequential_history.filter (fun p => game_number - 50 ≤ p.1) }

/-- Step 1 of `collect_inter_data` (lines 204-210): record the current
game's lead pair (unconditional dict assignment) when exactly two cards
parse. -/
def collectStep1 (now : Nat) (s : PState) (game_number : Int) (content : String) : PState :=
  let first_two_cards := get_first_two_cards content
  if first_two_cards.length = 2 then
    { s with sequential_history :=
        alSet s.sequential_history game_number ⟨first_two_cards, now⟩ }
  else s

/-- `collect_inter_data` (lines 198-250).  Note the three early returns of
the source: no (or empty, hence falsy) first parenthesized group skips
everything, and the duplicate guard at lines 226-232 returns *before* the
step-4 cleanup. -/
def collect_inter_data (now : Nat) (s : PState) (game_number : Int) (message : String) : PState :=
  match extract_first_parentheses_content message with
  | none => s
  | some content =>
    if content = "" then s
    else
      let s1 := collectStep1 now s game_number content
      match check_value_K_in_first_parentheses message with
      | some kc =>
        let n_minus_2 := game_number - 2
        match alGet s1.sequential_history n_minus_2 with
        | some trigger_entry =>
          if s1.inter_data.any (fun e => e.numero_resultat == game_number) then s1
          else
            cleanupHistory
              { s1 with inter_data := s1.inter_data ++
                  [⟨game_number, trigger_entry.cartes, n_minus_2,
                    kc.1 ++ kc.2, now⟩] }
              game_number
        | none => cleanupHistory s1 game_number
      | none => cleanupHistory s1 game_number

/-- The counting loop of `analyze_and_set_smart_rules` (lines 255-258):
`declencheur_counts[key] = declencheur_counts.get(key, 0) + 1` over the
log in order, so the resulting dict lists distinct trigger pairs in
first-seen order. -/
def declencheurCounts (l : List InterEntry) : List (List String × Nat) :=
  l.foldl (fun acc e => alSet acc e.declencheur ((alGet acc e.declencheur).getD 0 + 1)) []

/-- Comparison under which Python's stable
`sorted(counts.items(), key=count, reverse=True)` orders the indexed
count list: larger count first, ties by original (first-seen) position. -/
def rankLeB (a b : Nat × (List String × Nat)) : Bool :=
  decide (b.2.2 < a.2.2) || (decide (a.2.2 = b.2.2) && decide (a.1 ≤ b.1))

/-- `rankLeB` as a relation, for Mathlib's insertion sort. -/
def rankRel (a b : Nat × (List String × Nat)) : Prop :=
  rankLeB a b = true

instance : DecidableRel rankRel := fun a b => instDecidableEqBool (rankLeB a b) true

/-- `sorted_declencheurs` (lines 260-264): the distinct trigger pairs with
their counts, most frequent first, ties in first-seen order.  A stable
sort by descending count equals a sort by `rankRel` on the index-tagged
list, which is how it is embedded here. -/
def sortedDeclencheurs (l : List InterEntry) : List (List String × Nat) :=
  (List.insertionSort rankRel (declencheurCounts l).enum).map (fun p => p.2)

/-- `top_3` (lines 266-269). -/
def smartTop3 (l : List InterEntry) : List SmartRule :=
  ((sortedDeclencheurs l).take 3).map (fun p => ⟨p.1, p.2⟩)

/-- `analyze_and_set_smart_rules` (lines 253-282): replace the rule set
wholesale with the top 3 and update the learned-mode flag (activate when
non-empty; deactivate on an explicit, non-initial recomputation that
yields nothing). -/
def analyze_and_set_smart_rules (initial_load : Bool) (s : PState) : PState :=
  let top3 := smartTop3 s.inter_data
  { s with
    smart_rules := top3,
    is_inter_mode_active :=
      if top3 ≠ [] then true
      else if ¬ initial_load then false
      else s.is_inter_mode_active }

/-- The prediction-value computation of `should_predict` (lines 377-434).
The INTER rule (lines 395-401) fires on an exact lead-pair match against
an active rule; otherwise the static block of lines 404-434 runs: the
10-of-hearts rule, then `elif not predicted_value:` the score rule.  The
gap-rule `elif` of line 429 (where the source file is cut off) is dead
code: it is chained behind `elif not predicted_value:`, which is always
true when the 10-of-hearts rule did not fire, so the truncated branch can
never execute and is omitted here. -/
def predictedValue (s : PState) (message : String) : Option String :=
  match extract_first_parentheses_content message with
  | none => none
  | some content =>
    if content = "" then none
    else
      let card_details := extract_card_details content
      if s.is_inter_mode_active ∧ s.smart_rules ≠ [] ∧
          s.smart_rules.any (fun r => r.cards == get_first_two_cards content) then
        some "K"
      else if card_details.any (fun p => p.1 == "10" && p.2 == "♥️") then
        some "K"
      else
        match extract_total_score message with
        | some t => if t ≠ 0 ∧ 45 ≤ t then some "K" else none
        | none => none

/-- `should_predict` (lines 355-434 plus its missing tail).  The source
returns early when no source channel is configured, when no (or a falsy,
i.e. zero) game number is extractable, on a pending indicator, and on a
missing completion indicator; `collect_inter_data` runs after the
game-number check and before the indicator checks.  Modelled from the
spec: the file is truncated before the function's final return, which per
§4.3 of the spec yields `(True, game_number, predicted_rank)` when a rule
fired and `(False, None, None)` otherwise (the cooldown field is loaded
but not enforced). -/
def should_predict (now : Nat) (s : PState) (message : String) :
    PState × (Bool × Option Int × Option String) :=
  if s.target_channel_id = none then (s, (false, none, none))
  else
    match extract_game_number message with
    | none => (s, (false, none, none))
    | some 0 => (s, (false, none, none))
    | some (g + 1) =>
      let gn : Int := ((g + 1 : Nat) : Int)
      let s1 := collect_inter_data now s gn message
      if has_pending_indicators message then (s1, (false, none, none))
      else if ¬ (has_completion_indicators message = true) then (s1, (false, none, none))
      else
        match predictedValue s1 message with
        | some v => (s1, (true, some gn, some v))
        | none => (s1, (false, none, none))

/-- The outbound action built by `_process_channel_message`
(`handlers.py` lines 329-337) when `should_predict` fires; only the
structure relevant to the claims (the targeted game, `game_number + 2`)
is retained, the message text being produced by the truncated
`make_prediction`. -/
structure PredictionAction where
  predicted_game : Int
deriving DecidableEq

/-- The new-prediction half of `_process_channel_message` (`handlers.py`
lines 328-337): run `should_predict`; on `True` emit an action targeting
`game_number + 2`. -/
def processNewPrediction (now : Nat) (s : PState) (message : String) : Option PredictionAction :=
  let r := should_predict now s message
  if r.2.1 then (r.2.2.1).map (fun g => ⟨g + 2⟩) else none

theorem alGet_alSet_self {κ α : Type} [DecidableEq κ] (l : List (κ × α)) (k : κ) (v : α) :
    alGet (alSet l k v) k = some v := by
  induction l with
  | nil => simp [alSet, alGet]
  | cons p rest ih =>
    by_cases h : p.1 = k
    · simp [alSet, h, alGet]
    · simp [alSet, h, alGet, ih]

theorem alGet_alSet_ne {κ α : Type} [DecidableEq κ] (l : List (κ × α)) (k k' : κ) (v : α)
    (h : k' ≠ k) : alGet (alSet l k v) k' = alGet l k' := by
  induction l with
  | nil => simp [alSet, alGet, Ne.symm h]
  | cons p rest ih =>
    by_cases hp : p.1 = k
    · subst hp
      simp [alSet, alGet, Ne.symm h]
    · simp [alSet, hp, alGet, ih]

theorem keys_alSet {κ α : Type} [DecidableEq κ] (l : List (κ × α)) (k : κ) (v : α) :
    (alSet l k v).map Prod.fst =
      if k ∈ l.map Prod.fst then l.map Prod.fst else l.map Prod.fst ++ [k] := by
  induction l with
  | nil => simp [alSet]
  | cons p rest ih =>
    by_cases h : p.1 = k
    · simp [alSet, h]
    · by_cases hm : k ∈ rest.map Prod.fst
      · simp [alSet, h, ih, hm, Ne.symm h]
      · simp [alSet, h, ih, hm, Ne.symm h]

theorem alGet_filter_key {κ α : Type} [DecidableEq κ] (p : κ → Bool) (l : List (κ × α)) (k : κ) :
    alGet (l.filter (fun q => p q.1)) k = if p k then alGet l k else none := by
  induction l with
  | nil => simp [alGet]
  | cons q rest ih =>
    rw [List.filter_cons]
    by_cases hq : p q.1 <;> by_cases hk : q.1 = k
    · subst hk; simp [hq, alGet, ih]
    · simp [hq, alGet, hk, ih]
    · subst hk; simp [alGet, ih, hq]
    · simp [hq, alGet, hk, ih]

theorem alGet_of_mem_of_nodupKeys {κ α : Type} [DecidableEq κ] (l : List (κ × α)) (k : κ) (v : α)
    (hn : (l.map Prod.fst).Nodup) (hm : (k, v) ∈ l) : alGet l k = some v := by
  induction l with
  | nil => simp at hm
  | cons p rest ih =>
    simp only [List.map_cons, List.nodup_cons] at hn
    rcases List.mem_cons.mp hm with h | h
    · simp [alGet, ← h]
    · have hk : p.1 ≠ k := by
        intro he
        exact hn.1 (he ▸ (List.mem_map.mpr ⟨(k, v), h, rfl⟩))
      simp [alGet, hk, ih hn.2 h]

theorem alGet_cleanup (s : PState) (g k : Int) :
    alGet (cleanupHistory s g).sequential_history k =
      if g - 50 ≤ k then alGet s.sequential_history k else none := by
  have h := alGet_filter_key (fun x => decide (g - 50 ≤ x)) s.sequential_history k
  unfold cleanupHistory
  simp only [decide_eq_true_eq] at h
  exact h

/-- A freshly constructed `CardPredictor` whose persistence files are
absent: every aggregate takes its documented default. -/
def initialState (target prediction : Option Int) : PState :=
  ⟨target, prediction, [], [], false, []⟩

theorem collectStep1_history (now : Nat) (s : PState) (g : Int) (content : String)
    (h : (get_first_two_cards content).length = 2) :
    (collectStep1 now s g content).sequential_history
      = alSet s.sequential_history g ⟨get_first_two_cards content, now⟩ := by
  simp [collectStep1, h]

theorem collectStep1_inter (now : Nat) (s : PState) (g : Int) (content : String) :
    (collectStep1 now s g content).inter_data = s.inter_data := by
  by_cases h : (get_first_two_cards content).length = 2 <;> simp [collectStep1, h]

/-- C2 (amended): a message whose first parenthesized group parses to
exactly two lead cards always (over)writes the GameRecord at its game
number with that lead pair and the current timestamp — including when a
record already exists. -/
theorem c2_gamerecord_overwrite (now : Nat) (s : PState) (g : Int) (msg content : String)
    (h1 : extract_first_parentheses_content msg = some content)
    (h2 : content ≠ "")
    (h3 : (get_first_two_cards content).length = 2) :
    alGet (collect_inter_data now s g msg).sequential_history g
      = some ⟨get_first_two_cards content, now⟩ := by
  unfold collect_inter_data
  rw [h1]
  simp only [if_neg h2]
  have hs1 := collectStep1_history now s g content h3
  cases hk : check_value_K_in_first_parentheses msg with
  | none =>
    simp [alGet_cleanup, hs1, alGet_alSet_self]
  | some kc =>
    cases ht : alGet (collectStep1 now s g content).sequential_history (g - 2) with
    | none =>
      simp [alGet_cleanup, hs1, alGet_alSet_self]
    | some te =>
      by_cases hd : (collectStep1 now s g content).inter_data.any
          (fun e => e.numero_resultat == g) = true
      · simp [hd, hs1, alGet_alSet_self]
      · simp only [Bool.not_eq_true] at hd
        simp [hd, alGet_cleanup, hs1, alGet_alSet_self]

/-- The result message used to exercise the Correlator. -/
def c2_msg : String := "#N5. (2♠️ 3♦️) ✅"

/-- State in which a GameRecord for game 5 has already been written (by
processing `c2_msg` at time 0). -/
def c2_s1 : PState := collect_inter_data 0 (initialState (some 1) none) 5 c2_msg

/-- C2 counterexample: re-processing the very same message does NOT leave
the GameRecord unchanged — the unconditional dict assignment of line 207
overwrites it, refreshing the stored timestamp. -/
theorem c2_counterexample :
    alGet c2_s1.sequential_history 5 = some ⟨["2♠️", "3♦️"], 0⟩
    ∧ alGet (collect_inter_data 1 c2_s1 5 c2_msg).sequential_history 5
        = some ⟨["2♠️", "3♦️"], 1⟩
    ∧ (⟨["2♠️", "3♦️"], 1⟩ : GameRec) ≠ ⟨["2♠️", "3♦️"], 0⟩ :=
  ⟨by decide, by decide, by decide⟩

/-- Witness for C2 (amended) at a concrete input. -/
theorem c2_gamerecord_overwrite_witness :
    (extract_first_parentheses_content c2_msg = some "2♠️ 3♦️"
      ∧ ("2♠️ 3♦️" : String) ≠ ""
      ∧ (get_first_two_cards "2♠️ 3♦️").length = 2)
    ∧ alGet (collect_inter_data 3 c2_s1 5 c2_msg).sequential_history 5
        = some ⟨get_first_two_cards "2♠️ 3♦️", 3⟩ :=
  ⟨⟨by decide, by decide, by decide⟩,
   c2_gamerecord_overwrite 3 c2_s1 5 c2_msg "2♠️ 3♦️" (by decide) (by decide) (by decide)⟩

/-- A result message with a game number and a lead pair. -/
def c3_msg : String := "#N7. (2♠️ 3♦️) ✅"

/-- C3 counterexample: with no source-channel binding (`target_channel_id`
is `None`) — even though an output (prediction) channel IS configured —
`should_predict` returns before `collect_inter_data` runs, so a message
with an extractable game number and a lead pair leaves no GameRecord. -/
theorem c3_counterexample :
    extract_game_number c3_msg = some 7
    ∧ (should_predict 0 (initialState none (some 9)) c3_msg).1 = initialState none (some 9)
    ∧ alGet ((should_predict 0 (initialState none (some 9)) c3_msg).1).sequential_history 7 = none
    ∧ alGet (collect_inter_data 0 (initialState none (some 9)) 7 c3_msg).sequential_history 7
        = some ⟨["2♠️", "3♦️"], 0⟩ :=
  ⟨by decide, by decide, by decide, by decide⟩

/-- C3 (amended): once the source-channel binding exists and a nonzero
game number is extractable, the state produced by `should_predict` is
exactly the state produced by `collect_inter_data` — the Correlator runs
before the pending/completion short-circuits and regardless of whether a
prediction is made or an output channel is configured. -/
theorem c3_correlator_runs (now : Nat) (s : PState) (msg : String) (g : Nat)
    (h1 : s.target_channel_id ≠ none)
    (h2 : extract_game_number msg = some g) (h3 : g ≠ 0) :
    (should_predict now s msg).1 = collect_inter_data now s (g : Int) msg := by
  obtain ⟨k, rfl⟩ : ∃ k, g = k + 1 :=
    ⟨g - 1, (Nat.succ_pred_eq_of_pos (Nat.pos_of_ne_zero h3)).symm⟩
  unfold should_predict
  rw [if_neg h1, h2]
  dsimp only
  split
  · rfl
  · split
    · rfl
    · split <;> rfl

/-- Witness for C3 (amended): the Correlator runs even on a message
carrying a pending indicator. -/
theorem c3_correlator_runs_witness :
    ((initialState (some 1) none).target_channel_id ≠ none
      ∧ extract_game_number "#N7. (2♠️ 3♦️) 🕐" = some 7 ∧ (7 : Nat) ≠ 0)
    ∧ (should_predict 0 (initialState (some 1) none) "#N7. (2♠️ 3♦️) 🕐").1
        = collect_inter_data 0 (initialState (some 1) none) 7 "#N7. (2♠️ 3♦️) 🕐" :=
  ⟨⟨by decide, by decide, by decide⟩,
   c3_correlator_runs 0 (initialState (some 1) none) "#N7. (2♠️ 3♦️) 🕐" 7
     (by decide) (by decide) (by decide)⟩

theorem cleanup_inter (s : PState) (g : Int) :
    (cleanupHistory s g).inter_data = s.inter_data := rfl

/-- `collect_inter_data` either leaves the sample log untouched, or — only
when the duplicate guard found no sample for this game — appends exactly
one sample whose outcome number is this game's number. -/
theorem collect_inter_cases (now : Nat) (s : PState) (g : Int) (msg : String) :
    (collect_inter_data now s g msg).inter_data = s.inter_data ∨
    ((s.inter_data.any (fun e => e.numero_resultat == g)) = false ∧
      ∃ e : InterEntry, e.numero_resultat = g ∧
        (collect_inter_data now s g msg).inter_data = s.inter_data ++ [e]) := by
  unfold collect_inter_data
  cases hp : extract_first_parentheses_content msg with
  | none => exact Or.inl rfl
  | some content =>
    dsimp only
    by_cases hc : content = ""
    · rw [if_pos hc]
      exact Or.inl rfl
    · rw [if_neg hc]
      have hi := collectStep1_inter now s g content
      cases hk : check_value_K_in_first_parentheses msg with
      | none =>
        dsimp only
        exact Or.inl (by rw [cleanup_inter]; exact hi)
      | some kc =>
        dsimp only
        cases ht : alGet (collectStep1 now s g content).sequential_history (g - 2) with
        | none => exact Or.inl (by rw [cleanup_inter]; exact hi)
        | some te =>
          dsimp only
          by_cases hd : ((collectStep1 now s g content).inter_data.any
              (fun e => e.numero_resultat == g)) = true
          · rw [if_pos hd]
            exact Or.inl hi
          · rw [if_neg hd]
            simp only [Bool.not_eq_true] at hd
            refine Or.inr ⟨by rw [← hi]; exact hd,
              ⟨g, te.cartes, g - 2, kc.1 ++ kc.2, now⟩, rfl, ?_⟩
            simp only [cleanup_inter]
            rw [hi]

/-- `should_predict` either leaves the state unchanged (an early return
before the Correlator) or produces exactly the Correlator's state. -/
theorem should_predict_state_cases (now : Nat) (s : PState) (msg : String) :
    (should_predict now s msg).1 = s ∨
    ∃ g : Int, (should_predict now s msg).1 = collect_inter_data now s g msg := by
  by_cases h : s.target_channel_id = none
  · left; simp [should_predict, h]
  · cases he : extract_game_number msg with
    | none => left; simp [should_predict, h, he]
    | some g =>
      cases g with
      | zero => left; simp [should_predict, h, he]
      | succ k =>
        right
        refine ⟨((k + 1 : Nat) : Int), ?_⟩
        unfold should_predict
        rw [if_neg h, he]
        dsimp only
        split
        · rfl
        · split
          · rfl
          · split <;> rfl

theorem collect_preserves_nodup (now : Nat) (s : PState) (g : Int) (msg : String)
    (h : (s.inter_data.map (fun e => e.numero_resultat)).Nodup) :
    ((collect_inter_data now s g msg).inter_data.map (fun e => e.numero_resultat)).Nodup := by
  rcases collect_inter_cases now s g msg with hc | ⟨hany, e, he, hc⟩
  · rw [hc]; exact h
  · rw [hc, List.map_append]
    refine List.nodup_append.mpr ⟨h, by simp, ?_⟩
    intro x hx
    rcases List.mem_map.mp hx with ⟨e', he', rfl⟩
    simp only [List.map_cons, List.map_nil, List.mem_singleton, he]
    intro hxg
    have htrue : s.inter_data.any (fun e => e.numero_resultat == g) = true :=
      List.any_eq_true.mpr ⟨e', he', by simp [hxg]⟩
    rw [hany] at htrue
    exact Bool.false_ne_true htrue

/-- The states the bot can actually reach at runtime: a freshly
initialized predictor (absent persistence files), closed under message
processing (`should_predict`), direct Correlator runs, rule
recomputation, channel configuration, and the operator's
deactivate-learned-mode action. -/
inductive Reachable : PState → Prop
  | init (target prediction : Option Int) : Reachable ⟨target, prediction, [], [], false, []⟩
  | predictStep (now : Nat) (msg : String) {s : PState} :
      Reachable s → Reachable (should_predict now s msg).1
  | collectStep (now : Nat) (g : Int) (msg : String) {s : PState} :
      Reachable s → Reachable (collect_inter_data now s g msg)
  | analyzeStep (il : Bool) {s : PState} :
      Reachable s → Reachable (analyze_and_set_smart_rules il s)
  | setSource (cid : Int) {s : PState} :
      Reachable s → Reachable { s with target_channel_id := some cid }
  | setPrediction (cid : Int) {s : PState} :
      Reachable s → Reachable { s with prediction_channel_id := some cid }
  | deactivate {s : PState} :
      Reachable s → Reachable { s with is_inter_mode_active := false }

/-- C4: in every reachable state no two trigger samples share an outcome
game number, and re-delivering a message whose game number already
appears as an outcome game leaves the sample log untouched. -/
theorem c4_unique_outcomes :
    (∀ s, Reachable s → (s.inter_data.map (fun e => e.numero_resultat)).Nodup)
    ∧ (∀ (now : Nat) (s : PState) (g : Int) (msg : String),
        (s.inter_data.any (fun e => e.numero_resultat == g)) = true →
        (collect_inter_data now s g msg).inter_data = s.inter_data) := by
  constructor
  · intro s hr
    induction hr with
    | init target prediction => simp
    | predictStep now msg hr ih =>
      rcases should_predict_state_cases now _ msg with h | ⟨g, h⟩
      · rw [h]; exact ih
      · rw [h]; exact collect_preserves_nodup now _ g msg ih
    | collectStep now g msg hr ih => exact collect_preserves_nodup now _ g msg ih
    | analyzeStep il hr ih => exact ih
    | setSource cid hr ih => exact ih
    | setPrediction cid hr ih => exact ih
    | deactivate hr ih => exact ih
  · intro now s g msg h
    rcases collect_inter_cases now s g msg with hc | ⟨hany, _, _, _⟩
    · exact hc
    · rw [h] at hany
      exact absurd hany (by simp)

/-- Concrete run: game 3 records a lead pair, game 5 shows a King and
forms the sample with trigger game 3. -/
def c4_sA : PState := collect_inter_data 0 (initialState (some 1) none) 3 "#N3. (2♠️ 3♦️) ✅"

/-- Second step of the concrete run. -/
def c4_sB : PState := collect_inter_data 1 c4_sA 5 "#N5. (K♠️ 4♦️) ✅"

/-- Witness for C4 at a concrete reachable state with a non-empty log. -/
theorem c4_unique_outcomes_witness :
    (c4_sB.inter_data.map (fun e => e.numero_resultat)).Nodup
    ∧ (c4_sB.inter_data.any (fun e => e.numero_resultat == (5 : Int))) = true
    ∧ (collect_inter_data 2 c4_sB 5 "#N5. (K♠️ 4♦️) ✅").inter_data = c4_sB.inter_data :=
  ⟨c4_unique_outcomes.1 c4_sB
      (Reachable.collectStep 1 5 "#N5. (K♠️ 4♦️) ✅"
        (Reachable.collectStep 0 3 "#N3. (2♠️ 3♦️) ✅" (Reachable.init (some 1) none))),
   by decide,
   c4_unique_outcomes.2 2 c4_sB 5 "#N5. (K♠️ 4♦️) ✅" (by decide)⟩

/-- A state holding a GameRecord far older than the 50-game window. -/
def c5_s0 : PState := ⟨some 1, none, [(1, ⟨["2♠️", "3♦️"], 0⟩)], [], false, []⟩

/-- A state on the duplicate-guard path: an old record at game 1, a
trigger record at game 98, and an existing sample for outcome game 100. -/
def c5_s1 : PState :=
  ⟨some 1, none, [(1, ⟨["2♠️", "3♦️"], 0⟩), (98, ⟨["5♣️", "6♥️"], 2⟩)],
    [⟨100, ["5♣️", "6♥️"], 98, "K♠️", 3⟩], false, []⟩

/-- C5 counterexample: the eviction step is skipped both when the message
has no parenthesized group (first early return of `collect_inter_data`)
and when the duplicate guard returns early, so a GameRecord older than
`G - 50` survives processing a message with game number `G`. -/
theorem c5_counterexample :
    ((collect_inter_data 7 c5_s0 100 "#N100. ✅").sequential_history
        = [(1, ⟨["2♠️", "3♦️"], 0⟩)]
      ∧ (1 : Int) < 100 - 50)
    ∧ alGet (collect_inter_data 7 c5_s1 100 "#N100. (K♠️ 4♦️) ✅").sequential_history 1
        = some ⟨["2♠️", "3♦️"], 0⟩ :=
  ⟨⟨by decide, by decide⟩, by decide⟩

/-- The condition under which the duplicate guard of lines 226-232 returns
from `collect_inter_data` before the step-4 cleanup. -/
def isDuplicateShortCircuit (now : Nat) (s : PState) (g : Int) (msg : String) : Prop :=
  ∃ content, extract_first_parentheses_content msg = some content ∧ content ≠ "" ∧
    (check_value_K_in_first_parentheses msg).isSome ∧
    (alGet (collectStep1 now s g content).sequential_history (g - 2)).isSome ∧
    ((collectStep1 now s g content).inter_data.any (fun e => e.numero_resultat == g)) = true

/-- C5 (amended): whenever `collect_inter_data` reaches its cleanup step —
that is, the message has a non-empty first parenthesized group and the
duplicate guard does not return early — no GameRecord with game number
below `G - 50` survives, so such a record is absent from correlation
lookups. -/
theorem c5_eviction (now : Nat) (s : PState) (g : Int) (msg content : String)
    (h1 : extract_first_parentheses_content msg = some content)
    (h2 : content ≠ "")
    (h3 : ¬ isDuplicateShortCircuit now s g msg) :
    (∀ k rec, (k, rec) ∈ (collect_inter_data now s g msg).sequential_history → g - 50 ≤ k)
    ∧ (∀ k : Int, k < g - 50 →
        alGet (collect_inter_data now s g msg).sequential_history k = none) := by
  have hclean : ∀ s' : PState,
      (∀ k rec, (k, rec) ∈ (cleanupHistory s' g).sequential_history → g - 50 ≤ k)
      ∧ (∀ k : Int, k < g - 50 → alGet (cleanupHistory s' g).sequential_history k = none) := by
    intro s'
    constructor
    · intro k rec hm
      have := (List.mem_filter.mp hm).2
      simpa using this
    · intro k hk
      rw [alGet_cleanup]
      rw [if_neg (by omega)]
  unfold collect_inter_data
  rw [h1]
  dsimp only
  rw [if_neg h2]
  cases hk : check_value_K_in_first_parentheses msg with
  | none =>
    dsimp only
    exact hclean _
  | some kc =>
    dsimp only
    cases ht : alGet (collectStep1 now s g content).sequential_history (g - 2) with
    | none => exact hclean _
    | some te =>
      dsimp only
      by_cases hd : ((collectStep1 now s g content).inter_data.any
          (fun e => e.numero_resultat == g)) = true
      · exact absurd ⟨content, h1, h2, by rw [hk]; rfl, by rw [ht]; rfl, hd⟩ h3
      · rw [if_neg hd]
        exact hclean _

/-- Witness for C5 (amended) at a concrete input: processing game 100
evicts the record at game 1. -/
theorem c5_eviction_witness :
    (extract_first_parentheses_content "#N100. (4♠️ 6♦️) ✅" = some "4♠️ 6♦️"
      ∧ ("4♠️ 6♦️" : String) ≠ ""
      ∧ ¬ isDuplicateShortCircuit 7 c5_s0 100 "#N100. (4♠️ 6♦️) ✅")
    ∧ (∀ k : Int, k < 100 - 50 →
        alGet (collect_inter_data 7 c5_s0 100 "#N100. (4♠️ 6♦️) ✅").sequential_history k
          = none) :=
  ⟨⟨by decide, by decide,
      fun ⟨content, hco, _, hks, _, _⟩ => by
        revert hks
        rw [show check_value_K_in_first_parentheses "#N100. (4♠️ 6♦️) ✅" = none by decide]
        decide⟩,
   (c5_eviction 7 c5_s0 100 "#N100. (4♠️ 6♦️) ✅" "4♠️ 6♦️" (by decide) (by decide)
      (fun ⟨content, hco, _, hks, _, _⟩ => by
        revert hks
        rw [show check_value_K_in_first_parentheses "#N100. (4♠️ 6♦️) ✅" = none by decide]
        decide)).2⟩

/-- Source channel configured, no learned rules, empty history. -/
def c6_s0 : PState := initialState (some 1) none

/-- The 10-of-hearts scenario message. -/
def c6_msg : String := "#N50. (10♥️ 3♦️) ✅"

/-- C6: the scenario message produces a prediction of rank K for game 50
via the static 10-of-hearts rule, and — in general — whenever
`should_predict` fires for game number `g`, the new-prediction action
emitted by the handler targets game `g + 2`. -/
theorem c6_prediction_target :
    (should_predict 0 c6_s0 c6_msg).2 = (true, some 50, some "K")
    ∧ (∀ (now : Nat) (s : PState) (msg : String) (g : Int),
        (should_predict now s msg).2.1 = true →
        (should_predict now s msg).2.2.1 = some g →
        processNewPrediction now s msg = some ⟨g + 2⟩) := by
  constructor
  · decide
  · intro now s msg g h1 h2
    simp [processNewPrediction, h1, h2]

/-- Witness for C6 at the scenario input: the action targets game 52. -/
theorem c6_prediction_target_witness :
    ((should_predict 0 c6_s0 c6_msg).2.1 = true
      ∧ (should_predict 0 c6_s0 c6_msg).2.2.1 = some 50)
    ∧ processNewPrediction 0 c6_s0 c6_msg = some ⟨52⟩ :=
  ⟨⟨by decide, by decide⟩,
   c6_prediction_target.2 0 c6_s0 c6_msg 50 (by decide) (by decide)⟩

/-- C8: a message with a pending indicator, or without any completion
indicator, never yields a prediction, whatever the state and the rest of
the message. -/
theorem c8_no_prediction (now : Nat) (s : PState) (msg : String)
    (h : has_pending_indicators msg = true ∨ has_completion_indicators msg = false) :
    (should_predict now s msg).2 = (false, none, none) := by
  by_cases ht : s.target_channel_id = none
  · simp [should_predict, ht]
  · cases he : extract_game_number msg with
    | none => simp [should_predict, ht, he]
    | some g =>
      cases g with
      | zero => simp [should_predict, ht, he]
      | succ k =>
        unfold should_predict
        rw [if_neg ht, he]
        dsimp only
        rcases h with hp | hc
        · rw [if_pos hp]
        · by_cases hp : has_pending_indicators msg = true
          · rw [if_pos hp]
          · rw [if_neg hp, if_pos (by simp [hc])]

/-- Witness for C8 at the pending-indicator scenario message. -/
theorem c8_no_prediction_witness :
    (has_pending_indicators "#N10. (K♠️ 2♥️) 🕐" = true
      ∨ has_completion_indicators "#N10. (K♠️ 2♥️) 🕐" = false)
    ∧ (should_predict 0 (initialState (some 1) none) "#N10. (K♠️ 2♥️) 🕐").2
        = (false, none, none) :=
  ⟨Or.inl (by decide),
   c8_no_prediction 0 (initialState (some 1) none) "#N10. (K♠️ 2♥️) 🕐"
     (Or.inl (by decide))⟩

/-- C10: a zero game marker parses to `0`, yet `should_predict` treats it
— via Python's falsy test `if not game_number` — exactly like an absent
game number: immediate `(False, None, None)` with the state untouched, so
the two cases are indistinguishable downstream. -/
theorem c10_zero_game_number :
    extract_game_number "#N0." = some 0
    ∧ extract_game_number "🔵0🔵" = some 0
    ∧ (∀ (now : Nat) (s : PState) (msg : String),
        (extract_game_number msg = some 0 ∨ extract_game_number msg = none) →
        should_predict now s msg = (s, (false, none, none))) := by
  refine ⟨by decide, by decide, ?_⟩
  intro now s msg h
  by_cases ht : s.target_channel_id = none
  · simp [should_predict, ht]
  · rcases h with h | h <;> simp [should_predict, ht, h]

/-- Witness for C10 at the concrete zero-game message. -/
theorem c10_zero_game_number_witness :
    (extract_game_number "#N0." = some 0 ∨ extract_game_number "#N0." = none)
    ∧ should_predict 5 (initialState (some 1) none) "#N0."
        = (initialState (some 1) none, (false, none, none)) :=
  ⟨Or.inl (by decide),
   c10_zero_game_number.2.2 5 (initialState (some 1) none) "#N0." (Or.inl (by decide))⟩

/-- Number of samples in a log whose trigger pair is `k`. -/
def trigCount (l : List InterEntry) (k : List String) : Nat :=
  (l.map (fun e => e.declencheur)).count k

theorem alGet_isSome_iff_mem_keys {κ α : Type} [DecidableEq κ] (l : List (κ × α)) (k : κ) :
    (alGet l k).isSome ↔ k ∈ l.map Prod.fst := by
  induction l with
  | nil => simp [alGet]
  | cons p rest ih =>
    by_cases h : p.1 = k
    · simp [alGet, h]
    · simp [alGet, h, ih, Ne.symm h]

theorem declencheurCounts_append (l : List InterEntry) (e : InterEntry) :
    declencheurCounts (l ++ [e]) =
      alSet (declencheurCounts l) e.declencheur
        ((alGet (declencheurCounts l) e.declencheur).getD 0 + 1) := by
  simp [declencheurCounts, List.foldl_append]

theorem counts_val (l : List InterEntry) (k : List String) :
    alGet (declencheurCounts l) k =
      if k ∈ l.map (fun e => e.declencheur) then some (trigCount l k) else none := by
  induction l using List.reverseRecOn with
  | nil => simp [declencheurCounts, alGet, trigCount]
  | append_singleton l e ih =>
    rw [declencheurCounts_append]
    by_cases hkd : k = e.declencheur
    · have hsetk : alGet (alSet (declencheurCounts l) e.declencheur
          ((alGet (declencheurCounts l) e.declencheur).getD 0 + 1)) k
          = some ((alGet (declencheurCounts l) k).getD 0 + 1) := by
        rw [hkd, alGet_alSet_self]
      rw [hsetk, ih]
      have hmem : k ∈ (l ++ [e]).map (fun x => x.declencheur) := by simp [hkd]
      rw [if_pos hmem]
      have hTC : trigCount (l ++ [e]) k = trigCount l k + 1 := by
        simp [trigCount, List.count_append, List.count_singleton, hkd]
      rw [hTC]
      by_cases hm : k ∈ l.map (fun x => x.declencheur)
      · rw [if_pos hm]
        simp
      · rw [if_neg hm]
        have h0 : trigCount l k = 0 := by
          simp [trigCount, List.count_eq_zero, hm]
        simp [h0]
    · rw [alGet_alSet_ne _ _ _ _ hkd, ih]
      have hmm : (k ∈ (l ++ [e]).map (fun x => x.declencheur))
          ↔ k ∈ l.map (fun x => x.declencheur) := by simp [hkd]
      have hcnt : trigCount (l ++ [e]) k = trigCount l k := by
        simp [trigCount, List.count_append, List.count_singleton, Ne.symm hkd]
      by_cases hm : k ∈ l.map (fun x => x.declencheur)
      · rw [if_pos hm, if_pos (hmm.mpr hm), hcnt]
      · rw [if_neg hm, if_neg (fun h => hm (hmm.mp h))]

theorem counts_keys_nodup (l : List InterEntry) :
    ((declencheurCounts l).map Prod.fst).Nodup := by
  induction l using List.reverseRecOn with
  | nil => simp [declencheurCounts]
  | append_singleton l e ih =>
    rw [declencheurCounts_append, keys_alSet]
    by_cases hm : e.declencheur ∈ (declencheurCounts l).map Prod.fst
    · rw [if_pos hm]; exact ih
    · rw [if_neg hm]
      exact List.nodup_append.mpr ⟨ih, by simp, by
        intro a ha
        simp only [List.mem_singleton]
        intro hae
        exact hm (hae ▸ ha)⟩

theorem counts_keys_iff (l : List InterEntry) (k : List String) :
    k ∈ (declencheurCounts l).map Prod.fst ↔ k ∈ l.map (fun e => e.declencheur) := by
  rw [← alGet_isSome_iff_mem_keys, counts_val]
  by_cases hm : k ∈ l.map (fun e => e.declencheur) <;> simp [hm]

theorem counts_mem_val (l : List InterEntry) (k : List String) (c : Nat)
    (hm : (k, c) ∈ declencheurCounts l) :
    c = trigCount l k ∧ k ∈ l.map (fun e => e.declencheur) := by
  have h := alGet_of_mem_of_nodupKeys _ k c (counts_keys_nodup l) hm
  rw [counts_val] at h
  by_cases hk : k ∈ l.map (fun e => e.declencheur)
  · rw [if_pos hk] at h
    exact ⟨(Option.some_injective _ h).symm, hk⟩
  · rw [if_neg hk] at h
    exact absurd h (by simp)

/-- Position of the first occurrence of `k` in `l` (Python `list.index`);
the length of `l` when absent. -/
def firstIdx {α : Type} [DecidableEq α] : List α → α → Nat
  | [], _ => 0
  | d :: rest, k => if d = k then 0 else firstIdx rest k + 1

theorem firstIdx_append_of_mem {α : Type} [DecidableEq α] {l₁ : List α} (l₂ : List α)
    {k : α} (h : k ∈ l₁) : firstIdx (l₁ ++ l₂) k = firstIdx l₁ k := by
  induction l₁ with
  | nil => simp at h
  | cons d rest ih =>
    by_cases hd : d = k
    · simp [firstIdx, hd]
    · rcases List.mem_cons.mp h with h' | h'
      · exact absurd h'.symm hd
      · simp [firstIdx, hd, ih h']

theorem firstIdx_append_of_not_mem {α : Type} [DecidableEq α] {l₁ : List α} (l₂ : List α)
    {k : α} (h : k ∉ l₁) : firstIdx (l₁ ++ l₂) k = l₁.length + firstIdx l₂ k := by
  induction l₁ with
  | nil => simp
  | cons d rest ih =>
    have hd : d ≠ k := fun he => h (he ▸ List.mem_cons_self d rest)
    have hr : k ∉ rest := fun hm => h (List.mem_cons_of_mem d hm)
    simp [firstIdx, hd, ih hr]
    omega

theorem firstIdx_lt_length {α : Type} [DecidableEq α] {l : List α} {k : α} (h : k ∈ l) :
    firstIdx l k < l.length := by
  induction l with
  | nil => simp at h
  | cons d rest ih =>
    by_cases hd : d = k
    · simp [firstIdx, hd]
    · rcases List.mem_cons.mp h with h' | h'
      · exact absurd h'.symm hd
      · simp only [firstIdx, if_neg hd, List.length_cons]
        exact Nat.succ_lt_succ (ih h')

theorem counts_firstseen (l : List InterEntry) :
    ((declencheurCounts l).map Prod.fst).Pairwise
      (fun k1 k2 => firstIdx (l.map (fun e => e.declencheur)) k1
        < firstIdx (l.map (fun e => e.declencheur)) k2) := by
  induction l using List.reverseRecOn with
  | nil => simp [declencheurCounts]
  | append_singleton l e ih =>
    rw [declencheurCounts_append, keys_alSet]
    have hdecls : (l ++ [e]).map (fun x => x.declencheur)
        = l.map (fun x => x.declencheur) ++ [e.declencheur] := by simp
    by_cases hm : e.declencheur ∈ (declencheurCounts l).map Prod.fst
    · rw [if_pos hm]
      refine List.Pairwise.imp_of_mem ?_ ih
      intro a b ha hb hab
      rw [hdecls, firstIdx_append_of_mem _ ((counts_keys_iff l a).mp ha),
        firstIdx_append_of_mem _ ((counts_keys_iff l b).mp hb)]
      exact hab
    · rw [if_neg hm]
      refine List.pairwise_append.mpr ⟨List.Pairwise.imp_of_mem ?_ ih, by simp, ?_⟩
      · intro a b ha hb hab
        rw [hdecls, firstIdx_append_of_mem _ ((counts_keys_iff l a).mp ha),
          firstIdx_append_of_mem _ ((counts_keys_iff l b).mp hb)]
        exact hab
      · intro a ha b hb
        rw [List.mem_singleton] at hb
        subst hb
        have haml : a ∈ l.map (fun x => x.declencheur) := (counts_keys_iff l a).mp ha
        have hnm : e.declencheur ∉ l.map (fun x => x.declencheur) :=
          fun hc => hm ((counts_keys_iff l _).mpr hc)
        rw [hdecls, firstIdx_append_of_mem _ haml, firstIdx_append_of_not_mem _ hnm]
        have := firstIdx_lt_length haml
        omega

instance rankRel_trans : IsTrans (Nat × (List String × Nat)) rankRel := by
  constructor
  intro a b c hab hbc
  simp only [rankRel, rankLeB, Bool.or_eq_true, Bool.and_eq_true, decide_eq_true_eq] at *
  omega

instance rankRel_total : IsTotal (Nat × (List String × Nat)) rankRel := by
  constructor
  intro a b
  simp only [rankRel, rankLeB, Bool.or_eq_true, Bool.and_eq_true, decide_eq_true_eq]
  omega

theorem ranking_pairwise (l : List InterEntry) :
    (List.insertionSort rankRel (declencheurCounts l).enum).Pairwise
      (fun a b => b.2.2 < a.2.2 ∨ (a.2.2 = b.2.2 ∧ a.1 < b.1)) := by
  have hs : (List.insertionSort rankRel (declencheurCounts l).enum).Pairwise rankRel :=
    List.sorted_insertionSort rankRel _
  have hperm := List.perm_insertionSort rankRel (declencheurCounts l).enum
  have hnd : ((List.insertionSort rankRel (declencheurCounts l).enum).map Prod.fst).Nodup := by
    rw [(hperm.map Prod.fst).nodup_iff, List.enum_map_fst]
    exact List.nodup_range _
  have hne : (List.insertionSort rankRel (declencheurCounts l).enum).Pairwise
      (fun a b => a.1 ≠ b.1) := List.pairwise_map.mp hnd
  refine (hs.and hne).imp fun {a b} hab => ?_
  rcases hab with ⟨hr, hne'⟩
  simp only [rankRel, rankLeB, Bool.or_eq_true, Bool.and_eq_true, decide_eq_true_eq] at hr
  omega

theorem enum_firstseen (l : List InterEntry) (a b : Nat × (List String × Nat))
    (ha : a ∈ (declencheurCounts l).enum) (hb : b ∈ (declencheurCounts l).enum)
    (hab : a.1 < b.1) :
    firstIdx (l.map (fun e => e.declencheur)) a.2.1
      < firstIdx (l.map (fun e => e.declencheur)) b.2.1 := by
  obtain ⟨i, x⟩ := a
  obtain ⟨j, y⟩ := b
  simp only at hab ⊢
  rw [List.mk_mem_enum_iff_getElem?] at ha hb
  obtain ⟨hi, hxi⟩ := List.getElem?_eq_some.mp ha
  obtain ⟨hj, hyj⟩ := List.getElem?_eq_some.mp hb
  have hp := counts_firstseen l
  rw [List.pairwise_iff_getElem] at hp
  have h := hp i j (by simpa using hi) (by simpa using hj) hab
  rw [List.getElem_map, List.getElem_map, hxi, hyj] at h
  exact h

/-- The four-sample log of the spec's recomputation scenario. -/
def c7_log : List InterEntry :=
  [⟨10, ["7♦️", "9♠️"], 8, "K♠️", 0⟩, ⟨14, ["7♦️", "9♠️"], 12, "K♦️", 1⟩,
   ⟨17, ["2♣️", "5♥️"], 15, "K♥️", 2⟩, ⟨20, ["7♦️", "9♠️"], 18, "K♣️", 3⟩]

/-- C7: `analyze_and_set_smart_rules` replaces `smart_rules` wholesale with
a function of the sample log alone; the result has at most 3 rules, each a
distinct trigger pair of the log carrying its exact occurrence count,
listed in descending count order with ties broken by first appearance in
the log, and no excluded pair outranks a kept one; in the scenario of
three samples on (7♦️,9♠️) and one other, that pair is selected with
count 3. -/
theorem c7_smart_rules :
    (∀ (il : Bool) (s : PState),
        (analyze_and_set_smart_rules il s).smart_rules = smartTop3 s.inter_data)
    ∧ (∀ l, (smartTop3 l).length ≤ 3)
    ∧ (∀ l r, r ∈ smartTop3 l →
        r.count = trigCount l r.cards ∧ r.cards ∈ l.map (fun e => e.declencheur))
    ∧ (∀ l, ((smartTop3 l).map (fun r => r.cards)).Nodup)
    ∧ (∀ l, (smartTop3 l).Pairwise (fun r1 r2 =>
        r2.count < r1.count ∨ (r1.count = r2.count ∧
          firstIdx (l.map (fun e => e.declencheur)) r1.cards
            < firstIdx (l.map (fun e => e.declencheur)) r2.cards)))
    ∧ (∀ l r p, r ∈ smartTop3 l → p ∈ (sortedDeclencheurs l).drop 3 → p.2 ≤ r.count)
    ∧ smartTop3 c7_log = [⟨["7♦️", "9♠️"], 3⟩, ⟨["2♣️", "5♥️"], 1⟩] := by
  refine ⟨fun il s => rfl, ?_, ?_, ?_, ?_, ?_, by decide⟩
  · intro l
    simp [smartTop3, List.length_take]
  · intro l r hr
    simp only [smartTop3, List.mem_map] at hr
    obtain ⟨p, hp, rfl⟩ := hr
    have hp' : p ∈ sortedDeclencheurs l := List.take_subset _ _ hp
    simp only [sortedDeclencheurs, List.mem_map] at hp'
    obtain ⟨x, hx, rfl⟩ := hp'
    have hxe : x ∈ (declencheurCounts l).enum :=
      (List.perm_insertionSort rankRel _).subset hx
    have hx2 : x.2 ∈ declencheurCounts l := by
      have h : x.2 ∈ (declencheurCounts l).enum.map Prod.snd :=
        List.mem_map.mpr ⟨x, hxe, rfl⟩
      rwa [List.enum_map_snd] at h
    exact counts_mem_val l x.2.1 x.2.2 hx2
  · intro l
    have heq : (smartTop3 l).map (fun r => r.cards)
        = ((List.insertionSort rankRel (declencheurCounts l).enum).map
            (fun x => x.2.1)).take 3 := by
      simp [smartTop3, sortedDeclencheurs, List.map_take, List.map_map]
      rfl
    rw [heq]
    refine List.Nodup.sublist (List.take_sublist _ _) ?_
    have hperm := (List.perm_insertionSort rankRel (declencheurCounts l).enum).map
      (fun x => x.2.1)
    rw [hperm.nodup_iff]
    have h2 : (declencheurCounts l).enum.map (fun x => x.2.1)
        = ((declencheurCounts l).enum.map Prod.snd).map Prod.fst := by
      rw [List.map_map]; rfl
    rw [h2, List.enum_map_snd]
    exact counts_keys_nodup l
  · intro l
    have heq : smartTop3 l
        = ((List.insertionSort rankRel (declencheurCounts l).enum).take 3).map
            (fun x => (⟨x.2.1, x.2.2⟩ : SmartRule)) := by
      simp [smartTop3, sortedDeclencheurs, List.map_take, List.map_map]
      rfl
    rw [heq, List.pairwise_map]
    have hp3 := List.Pairwise.sublist (List.take_sublist 3 _) (ranking_pairwise l)
    refine List.Pairwise.imp_of_mem ?_ hp3
    intro a b ha hb hab
    have ha' : a ∈ (declencheurCounts l).enum :=
      (List.perm_insertionSort rankRel _).subset (List.take_subset _ _ ha)
    have hb' : b ∈ (declencheurCounts l).enum :=
      (List.perm_insertionSort rankRel _).subset (List.take_subset _ _ hb)
    rcases hab with h | ⟨hcnt, hidx⟩
    · exact Or.inl h
    · exact Or.inr ⟨hcnt, enum_firstseen l a b ha' hb' hidx⟩
  · intro l r p hr hp
    simp only [smartTop3, List.mem_map] at hr
    obtain ⟨q, hq, rfl⟩ := hr
    rw [show sortedDeclencheurs l
        = (List.insertionSort rankRel (declencheurCounts l).enum).map Prod.snd from rfl,
      ← List.map_take, List.mem_map] at hq
    rw [show sortedDeclencheurs l
        = (List.insertionSort rankRel (declencheurCounts l).enum).map Prod.snd from rfl,
      ← List.map_drop, List.mem_map] at hp
    obtain ⟨x, hx, rfl⟩ := hq
    obtain ⟨y, hy, rfl⟩ := hp
    have hsp := ranking_pairwise l
    rw [← List.take_append_drop 3 (List.insertionSort rankRel (declencheurCounts l).enum),
      List.pairwise_append] at hsp
    have hxy := hsp.2.2 x hx y hy
    rcases hxy with h | ⟨h, -⟩
    · exact Nat.le_of_lt h
    · exact Nat.le_of_eq h.symm

/-- Witness for C7 at the scenario log: the top rule's count matches the
occurrence count of its trigger pair. -/
theorem c7_smart_rules_witness :
    ((⟨["7♦️", "9♠️"], 3⟩ : SmartRule) ∈ smartTop3 c7_log)
    ∧ ((3 : Nat) = trigCount c7_log ["7♦️", "9♠️"]
        ∧ ["7♦️", "9♠️"] ∈ c7_log.map (fun e => e.declencheur)) :=
  ⟨by decide, c7_smart_rules.2.2.1 c7_log ⟨["7♦️", "9♠️"], 3⟩ (by decide)⟩

/-- Decimal digits of `n` most-significant first, as `str(n)` renders a
positive integer; fuel-structured, `fuel = n` always suffices. -/
def natToDigitsAux : Nat → Nat → List Char
  | 0, _ => []
  | _ + 1, 0 => []
  | fuel + 1, n + 1 =>
    natToDigitsAux fuel ((n + 1) / 10) ++ [Nat.digitChar ((n + 1) % 10)]

/-- Python `str` on a nonnegative integer. -/
def natToStr (n : Nat) : String :=
  if n = 0 then "0" else ⟨natToDigitsAux n n⟩

/-- Python `int` applied to a decimal-digit string (the only shape that
reaches it when re-parsing keys written by `str`); any other shape raises
`ValueError`, modelled as `none`. -/
def strToNat (s : String) : Option Nat :=
  if s.data ≠ [] ∧ s.data.all Char.isDigit then some (digitsVal s.data) else none

theorem digitChar_isDigit (d : Nat) (h : d < 10) : (Nat.digitChar d).isDigit = true := by
  interval_cases d <;> decide

theorem digitChar_val (d : Nat) (h : d < 10) : (Nat.digitChar d).toNat - 48 = d := by
  interval_cases d <;> decide

theorem digitsVal_append (xs : List Char) (c : Char) :
    digitsVal (xs ++ [c]) = 10 * digitsVal xs + (c.toNat - 48) := by
  simp [digitsVal, List.foldl_append]

theorem natToDigitsAux_zero (fuel : Nat) : natToDigitsAux fuel 0 = [] := by
  cases fuel <;> rfl

theorem natToDigitsAux_spec (fuel : Nat) :
    ∀ n, 0 < n → n ≤ fuel →
      digitsVal (natToDigitsAux fuel n) = n
      ∧ (natToDigitsAux fuel n).all Char.isDigit = true
      ∧ natToDigitsAux fuel n ≠ [] := by
  induction fuel with
  | zero => intro n h1 h2; omega
  | succ fuel ih =>
    intro n h1 h2
    obtain ⟨m, rfl⟩ : ∃ m, n = m + 1 := ⟨n - 1, by omega⟩
    rw [show natToDigitsAux (fuel + 1) (m + 1)
        = natToDigitsAux fuel ((m + 1) / 10) ++ [Nat.digitChar ((m + 1) % 10)] from rfl]
    by_cases hq : (m + 1) / 10 = 0
    · rw [hq, natToDigitsAux_zero]
      refine ⟨?_, ?_, by simp⟩
      · rw [digitsVal_append, digitChar_val _ (Nat.mod_lt _ (by omega))]
        simp [digitsVal]
        omega
      · simp [digitChar_isDigit _ (Nat.mod_lt _ (by omega))]
    · have hqpos : 0 < (m + 1) / 10 := Nat.pos_of_ne_zero hq
      have hqle : (m + 1) / 10 ≤ fuel := by
        have : (m + 1) / 10 < m + 1 := Nat.div_lt_self (by omega) (by omega)
        omega
      obtain ⟨ihv, iha, ihn⟩ := ih ((m + 1) / 10) hqpos hqle
      refine ⟨?_, ?_, by simp⟩
      · rw [digitsVal_append, ihv, digitChar_val _ (Nat.mod_lt _ (by omega))]
        omega
      · simp [List.all_append, iha, digitChar_isDigit _ (Nat.mod_lt _ (by omega))]

theorem strToNat_natToStr (n : Nat) : strToNat (natToStr n) = some n := by
  by_cases h : n = 0
  · subst h; decide
  · unfold natToStr strToNat
    rw [if_neg h]
    obtain ⟨hv, ha, hn⟩ := natToDigitsAux_spec n n (Nat.pos_of_ne_zero h) le_rfl
    rw [if_pos ⟨hn, ha⟩]
    rw [hv]

/-- A Python dict key as JSON serialization sees it: an `int` key in
memory, or the `str` key found in a parsed JSON object (JSON object keys
are always strings). -/
inductive PyKey where
  | intKey (n : Nat)
  | strKey (s : String)
deriving DecidableEq

/-- Python `==` on keys: `int` and `str` values are never equal. -/
def pyKeyBeq : PyKey → PyKey → Bool
  | .intKey m, .intKey n => m == n
  | .strKey s, .strKey t => s == t
  | _, _ => false

/-- Python `==` on two dicts (with distinct keys, as ours have): same
size, and every binding of one is a binding of the other. -/
def pyDictBeq {α : Type} [BEq α] (l1 l2 : List (PyKey × α)) : Bool :=
  (l1.length == l2.length) &&
  l1.all (fun p => l2.any (fun q => pyKeyBeq p.1 q.1 && p.2 == q.2))

/-- `json.dump` on `predictions` (lines 93-95): int dict keys become their
decimal strings. -/
def save_predictions {α : Type} (l : List (PyKey × α)) : List (PyKey × α) :=
  l.map (fun p => match p.1 with
    | .intKey n => (PyKey.strKey (natToStr n), p.2)
    | k => (k, p.2))

/-- `_load_data('predictions.json')` returns the parsed object unchanged
(line 70): keys stay strings. -/
def load_predictions {α : Type} (l : List (PyKey × α)) : List (PyKey × α) := l

/-- `_save_data` on the processed-message set (lines 88-89):
`list(data)` — some enumeration of the set's elements. -/
def save_processed (s : Finset String) : List String := s.sort (· ≤ ·)

/-- `_load_data('processed.json', is_set=True)` (lines 56-57):
`set(data)`. -/
def load_processed (l : List String) : Finset String := l.toFinset

/-- A JSON number as Python distinguishes them: `int` or `float`
(rationals stand in for floats; the timestamps involved are exact). -/
inductive PyNum where
  | i (n : Int)
  | f (q : ℚ)
deriving DecidableEq

/-- The numeric value denoted, for Python `==` across int/float. -/
def pyNumVal : PyNum → ℚ
  | .i n => (n : ℚ)
  | .f q => q

/-- Python `==` on numbers. -/
def pyNumEq (a b : PyNum) : Bool := pyNumVal a == pyNumVal b

/-- Python `int()` on a float: truncation toward zero. -/
def pyIntTrunc (q : ℚ) : Int := q.num.tdiv (q.den : Int)

/-- `json.dump` of a bare number (line 95). -/
def save_scalar (x : PyNum) : PyNum := x

/-- `_load_data(..., is_scalar=True)` for `last_prediction_time.json`
(line 61): `int(data) if isinstance(data, (int, float)) else data`. -/
def load_scalar : PyNum → PyNum
  | .i n => .i n
  | .f q => .i (pyIntTrunc q)

/-- `json.dump` on `sequential_history` (line 95): int keys become
decimal strings. -/
def save_sequential_history {α : Type} (l : List (Nat × α)) : List (String × α) :=
  l.map (fun p => (natToStr p.1, p.2))

/-- `_load_data('sequential_history.json')` (line 67):
`{int(k): v for k, v in data.items()}`; a non-numeric key raises
(`none`), caught by the outer handler. -/
def load_sequential_history {α : Type} (l : List (String × α)) : Option (List (Nat × α)) :=
  l.foldr (fun p acc => match strToNat p.1, acc with
    | some k, some r => some ((k, p.2) :: r)
    | _, _ => none) (some [])

/-- `inter_data.json` is stored and returned as-is (lines 64, 95). -/
def save_inter_data (l : List InterEntry) : List InterEntry := l

/-- `_load_data('inter_data.json')` (line 64). -/
def load_inter_data (l : List InterEntry) : List InterEntry := l

/-- `smart_rules.json` is stored and returned as-is (lines 68, 95). -/
def save_smart_rules (l : List SmartRule) : List SmartRule := l

/-- `_load_data('smart_rules.json')` (line 68). -/
def load_smart_rules (l : List SmartRule) : List SmartRule := l

/-- `_save_data(..., 'inter_mode_status.json')` (lines 86-87): the flag is
wrapped as `{'active': flag}`. -/
def save_inter_mode_status (b : Bool) : List (String × Bool) := [("active", b)]

/-- `_load_data('inter_mode_status.json', is_scalar=True)` (lines 59-60):
`data.get('active', False)`. -/
def load_inter_mode_status (l : List (String × Bool)) : Bool :=
  (((l.find? (fun p => p.1 == "active")).map (fun p => p.2))).getD false

/-- C1 counterexample: the predictions map does not survive a round trip —
a prediction stored under int key 52 comes back under the string key
"52", which Python's `==` (and plain equality) distinguishes. -/
theorem c1_counterexample :
    pyDictBeq (load_predictions (save_predictions [(PyKey.intKey 52, (7 : Int))]))
        [(PyKey.intKey 52, (7 : Int))] = false
    ∧ load_predictions (save_predictions [(PyKey.intKey 52, (7 : Int))])
        ≠ [(PyKey.intKey 52, (7 : Int))] :=
  ⟨by decide, by decide⟩

/-- C1 (amended): save-then-load is the identity for the processed-message
set, the trigger-sample log, the smart-rule set, the learned-mode flag and
the game-record window (whose keys `int(k)` restores); the
last-prediction timestamp survives as an int, and a float timestamp comes
back Python-equal exactly when it is integral (it is truncated); the
predictions map survives only when its keys are already strings — its
in-memory int keys are stringified (see the counterexample). -/
theorem c1_roundtrip :
    (∀ s : Finset String, load_processed (save_processed s) = s)
    ∧ (∀ l : List InterEntry, load_inter_data (save_inter_data l) = l)
    ∧ (∀ l : List SmartRule, load_smart_rules (save_smart_rules l) = l)
    ∧ (∀ b : Bool, load_inter_mode_status (save_inter_mode_status b) = b)
    ∧ (∀ (α : Type) (l : List (Nat × α)),
        load_sequential_history (save_sequential_history l) = some l)
    ∧ (∀ n : Int, load_scalar (save_scalar (.i n)) = .i n)
    ∧ (∀ q : ℚ, pyNumEq (load_scalar (save_scalar (.f q))) (.f q) = true ↔ q.den = 1)
    ∧ (∀ (α : Type) (l : List (PyKey × α)),
        (∀ p ∈ l, ∃ t, p.1 = PyKey.strKey t) →
        load_predictions (save_predictions l) = l) := by
  refine ⟨fun s => Finset.sort_toFinset _ s, fun l => rfl, fun l => rfl, fun b => rfl,
    ?_, fun n => rfl, ?_, ?_⟩
  · intro α l
    induction l with
    | nil => rfl
    | cons p rest ih =>
      obtain ⟨k, v⟩ := p
      show (match strToNat (natToStr k),
          load_sequential_history (save_sequential_history rest) with
        | some k', some r => some ((k', v) :: r)
        | _, _ => none) = some ((k, v) :: rest)
      rw [strToNat_natToStr, ih]
  · intro q
    simp only [save_scalar, load_scalar, pyNumEq, pyNumVal, beq_iff_eq]
    constructor
    · intro h
      rw [← h]
      exact Rat.den_intCast _
    · intro h
      have hq := (Rat.den_eq_one_iff q).mp h
      rw [pyIntTrunc, h]
      push_cast
      rw [Int.tdiv_one]
      exact hq
  · intro α l h
    induction l with
    | nil => rfl
    | cons p rest ih =>
      obtain ⟨pk, pv⟩ := p
      have hrest := ih (fun q hq => h q (List.mem_cons_of_mem _ hq))
      obtain ⟨t, ht⟩ := h (pk, pv) (List.mem_cons_self _ rest)
      simp only at ht
      subst ht
      show (PyKey.strKey t, pv) :: load_predictions (save_predictions rest)
          = (PyKey.strKey t, pv) :: rest
      exact congrArg (fun xs => (PyKey.strKey t, pv) :: xs) hrest

/-- Witness for C1 (amended) at concrete values. -/
theorem c1_roundtrip_witness :
    (∀ p ∈ [(PyKey.strKey "done", (1 : Int))], ∃ t, p.1 = PyKey.strKey t)
    ∧ load_predictions (save_predictions [(PyKey.strKey "done", (1 : Int))])
        = [(PyKey.strKey "done", (1 : Int))]
    ∧ load_sequential_history
        (save_sequential_history [((5 : Nat), (⟨["2♠️", "3♦️"], 0⟩ : GameRec))])
        = some [(5, ⟨["2♠️", "3♦️"], 0⟩)]
    ∧ (pyNumEq (load_scalar (save_scalar (.f (3 : ℚ)))) (.f 3) = true ↔ (3 : ℚ).den = 1) :=
  ⟨by intro p hp; simp at hp; exact ⟨"done", by rw [hp]⟩,
   c1_roundtrip.2.2.2.2.2.2.2 Int [(PyKey.strKey "done", (1 : Int))]
     (by intro p hp; simp at hp; exact ⟨"done", by rw [hp]⟩),
   c1_roundtrip.2.2.2.2.1 GameRec [((5 : Nat), (⟨["2♠️", "3♦️"], 0⟩ : GameRec))],
   c1_roundtrip.2.2.2.2.2.2.1 (3 : ℚ)⟩

/-- Durable content of one logical aggregate's file: present with parsed
content, missing (`FileNotFoundError`), or unreadable
(`json.JSONDecodeError`, including an empty file). -/
inductive FileData (α : Type) where
  | missing
  | corrupt
  | stored (a : α)

/-- Full `_load_data` for `predictions.json`: defaults to `{}`
(line 79). -/
def load_predictions_file {α : Type} : FileData (List (PyKey × α)) → List (PyKey × α)
  | .stored l => load_predictions l
  | _ => []

/-- Full `_load_data` for `processed.json`: defaults to `set()`
(line 73). -/
def load_processed_file : FileData (List String) → Finset String
  | .stored l => load_processed l
  | _ => ∅

/-- Full `_load_data` for `last_prediction_time.json`: defaults to `0.0`
(line 75). -/
def load_scalar_file : FileData PyNum → PyNum
  | .stored x => load_scalar x
  | _ => .f 0

/-- Full `_load_data` for `inter_data.json`: defaults to `[]`
(line 76). -/
def load_inter_data_file : FileData (List InterEntry) → List InterEntry
  | .stored l => load_inter_data l
  | _ => []

/-- Full `_load_data` for `sequential_history.json`: defaults to `{}`
(line 77); a key that `int()` rejects lands in the final handler, which
also yields `{}` for this file (line 82). -/
def load_sequential_history_file {α : Type} :
    FileData (List (String × α)) → List (Nat × α)
  | .stored l => (load_sequential_history l).getD []
  | _ => []

/-- Full `_load_data` for `inter_mode_status.json`: defaults to `False`
(line 74). -/
def load_inter_mode_status_file : FileData (List (String × Bool)) → Bool
  | .stored l => load_inter_mode_status l
  | _ => false

/-- Full `_load_data` for `smart_rules.json`: defaults to `[]`
(line 78). -/
def load_smart_rules_file : FileData (List SmartRule) → List SmartRule
  | .stored l => load_smart_rules l
  | _ => []

/-- `_save_data` (lines 84-97): on a write failure the exception is caught
inside the method, so the durable content is simply left as it was and
control returns to the caller. -/
def save_data_file {α : Type} (writeOk : Bool) (old : FileData α) (payload : α) : FileData α :=
  if writeOk then .stored payload else old

/-- A Correlator step together with its `_save_all_data` flush of the
sample log: the in-memory transition never consults the write outcome. -/
def collect_with_flush (writeOk : Bool) (now : Nat) (s : PState) (g : Int) (msg : String)
    (disk : FileData (List InterEntry)) : PState × FileData (List InterEntry) :=
  (collect_inter_data now s g msg,
   save_data_file writeOk disk (collect_inter_data now s g msg).inter_data)

/-- C9: `_load_data` is total — a missing or corrupt file yields the
documented default of each aggregate ({} for predictions, set() for
processed messages, 0.0 for the timestamp, [] for the sample log, {} for
the game-record window, False for the learned-mode flag, [] for the smart
rules) — and `_save_data` swallows write failures: the durable content is
left unchanged and the caller's in-memory state is the same as on a
successful flush. -/
theorem c9_load_defaults_save_swallow :
    (load_predictions_file (.missing : FileData (List (PyKey × Int))) = []
      ∧ load_predictions_file (.corrupt : FileData (List (PyKey × Int))) = [])
    ∧ (load_processed_file .missing = ∅ ∧ load_processed_file .corrupt = ∅)
    ∧ (load_scalar_file .missing = .f 0 ∧ load_scalar_file .corrupt = .f 0)
    ∧ (load_inter_data_file .missing = [] ∧ load_inter_data_file .corrupt = [])
    ∧ (load_sequential_history_file (.missing : FileData (List (String × GameRec))) = []
      ∧ load_sequential_history_file (.corrupt : FileData (List (String × GameRec))) = [])
    ∧ (load_inter_mode_status_file .missing = false
      ∧ load_inter_mode_status_file .corrupt = false)
    ∧ (load_smart_rules_file .missing = [] ∧ load_smart_rules_file .corrupt = [])
    ∧ (∀ (α : Type) (old : FileData α) (payload : α),
        save_data_file false old payload = old)
    ∧ (∀ (now : Nat) (s : PState) (g : Int) (msg : String)
        (disk : FileData (List InterEntry)),
        (collect_with_flush true now s g msg disk).1
          = (collect_with_flush false now s g msg disk).1) :=
  ⟨⟨rfl, rfl⟩, ⟨rfl, rfl⟩, ⟨rfl, rfl⟩, ⟨rfl, rfl⟩, ⟨rfl, rfl⟩, ⟨rfl, rfl⟩, ⟨rfl, rfl⟩,
   fun _ _ _ => rfl, fun _ _ _ _ _ => rfl⟩
